import Mathlib

/-!
Verification development for the nestjs-crud-api repository: a single-resource
CRUD endpoint (`ItemsController` in src/unnamed/part_001) over an `Item` entity,
backed by a generic record store (a TypeORM repository, an external collaborator
whose code is not part of the repository; its operations are modelled from the
spec). Persistence configuration comes from `TypeOrmModule.forRoot` in
src/unnamed/part_001.
-/

/-- The `Item` entity (src/README.md, `src/entities/item.entity.ts`): an integer
surrogate key `id` generated by the store, plus columns `name`, `description`,
`quantity` with no declared constraints; nullable column values are modelled
with `Option`. -/
structure Item where
  id : Nat
  name : Option String
  description : Option String
  quantity : Option Int
  deriving DecidableEq, Repr

/-- A client payload deserialized into an Item shape: the client may supply any
subset of the fields, including `id` (src/unnamed/part_001 `@Body() item: Item`;
spec §4.1). Absent/null fields are `none`. -/
structure ItemPayload where
  id : Option Nat
  name : Option String
  description : Option String
  quantity : Option Int
  deriving DecidableEq, Repr

/-- The state of the Record Store: the stored records in store-default
(insertion) order, plus the next surrogate key the store will generate. -/
structure Store where
  records : List Item
  nextId : Nat
  deriving DecidableEq, Repr

/-- Modelled from the spec: the store's find-all operation (the TypeORM
repository's `find()` is not in the repository). Returns the full sequence of
stored records in store-default (insertion) order. -/
def Store.find (s : Store) : List Item :=
  s.records

/-- Modelled from the spec: the store's insert operation (`save` of the TypeORM
repository is not in the repository). Per spec §3 the `id` is "generated by the
store on insert"; the persisted record carries the payload's fields as-is and
the freshly generated key, and is appended in insertion order. Returns the new
store state and the persisted record. -/
def Store.save (s : Store) (p : ItemPayload) : Store × Item :=
  let it : Item := ⟨s.nextId, p.name, p.description, p.quantity⟩
  (⟨s.records ++ [it], s.nextId + 1⟩, it)

/-- Overwrite each field of a stored record that the payload provides; the
surrogate key is immutable (spec §3). -/
def Item.applyPayload (r : Item) (p : ItemPayload) : Item :=
  { r with
    name := match p.name with
      | some v => some v
      | none => r.name
    description := match p.description with
      | some v => some v
      | none => r.description
    quantity := match p.quantity with
      | some v => some v
      | none => r.quantity }

/-- Modelled from the spec: the store's update-by-key operation (`update` of the
TypeORM repository is not in the repository). The record keyed on `id` is
mutated in place with the provided fields overwritten; `id` is immutable; when
no record has that key the update is a no-op (spec §3, §4.1). -/
def Store.updateById (s : Store) (k : Nat) (p : ItemPayload) : Store :=
  { s with records := s.records.map fun r => if r.id = k then r.applyPayload p else r }

/-- Modelled from the spec: the store's read-by-key operation (`findOne` of the
TypeORM repository is not in the repository). Returns the record keyed on `id`,
or an absent result when no record has that key. -/
def Store.findOne (s : Store) (k : Nat) : Option Item :=
  s.records.find? fun r => r.id == k

/-- Modelled from the spec: the store's delete-by-key operation (`delete` of the
TypeORM repository is not in the repository). Removes every record keyed on
`id` (idempotent by design) and also reports the number of affected rows, which
the caller may discard. -/
def Store.deleteById (s : Store) (k : Nat) : Store × Nat :=
  ({ s with records := s.records.filter fun r => r.id != k },
   (s.records.filter fun r => r.id == k).length)

/-- `ItemsController.findAll` (src/unnamed/part_001 lines 9-12): returns
`this.itemRepository.find()`. -/
def ItemsController.findAll (s : Store) : List Item :=
  s.find

/-- `ItemsController.create` (src/unnamed/part_001 lines 14-17): returns
`this.itemRepository.save(item)`, forwarding the body unchanged. -/
def ItemsController.create (s : Store) (p : ItemPayload) : Store × Item :=
  s.save p

/-- `ItemsController.update` (src/unnamed/part_001 lines 19-23): awaits
`this.itemRepository.update(id, item)`, then returns
`this.itemRepository.findOne(id)` on the resulting store state. -/
def ItemsController.update (s : Store) (k : Nat) (p : ItemPayload) : Store × Option Item :=
  let s' := s.updateById k p
  (s', s'.findOne k)

/-- `ItemsController.delete` (src/unnamed/part_001 lines 25-28): awaits
`this.itemRepository.delete(id)` and returns void, discarding the store's
affected-row information. The route's observable response body is modelled as
`Option Nat` (a body that could report affected rows); the handler returns no
content, i.e. `none`. -/
def ItemsController.delete (s : Store) (k : Nat) : Store × Option Nat :=
  let res := s.deleteById k
  (res.1, none)

/-- HTTP-level classification of the create route's response: the framework maps
a resolved handler to a success response carrying the handler's return value; a
client-error response would require a validation/rejection path, and
src/unnamed/part_001 installs none. -/
inductive CreateResp where
  | ok : Item → CreateResp
  | clientError : CreateResp
  deriving DecidableEq, Repr

/-- The create route as observed over HTTP: `ItemsController.create` never
rejects, so the response is always `ok` of the persisted item
(src/unnamed/part_001 lines 14-17). -/
def ItemsController.createRoute (s : Store) (p : ItemPayload) : Store × CreateResp :=
  let res := ItemsController.create s p
  (res.1, CreateResp.ok res.2)

/-- One client operation against the endpoint (the four routes of
src/unnamed/part_001). -/
inductive Op where
  | list : Op
  | create : ItemPayload → Op
  | update : Nat → ItemPayload → Op
  | delete : Nat → Op
  deriving DecidableEq, Repr

/-- The store state reached after one endpoint operation. -/
def applyOp (s : Store) : Op → Store
  | Op.list => s
  | Op.create p => (ItemsController.create s p).1
  | Op.update k p => (ItemsController.update s k p).1
  | Op.delete k => (ItemsController.delete s k).1

/-- The store state reached after a sequence of endpoint operations. -/
def applyOps (s : Store) (ops : List Op) : Store :=
  ops.foldl applyOp s

/-- Store well-formedness: the stored keys are pairwise distinct and all lie
below the next key the store will generate. Holds of the empty store and is
preserved by every operation. -/
def Store.WF (s : Store) : Prop :=
  (s.records.map Item.id).Nodup ∧ ∀ r ∈ s.records, r.id < s.nextId

/-- The options object passed to `TypeOrmModule.forRoot`
(src/unnamed/part_001 lines 37-42). -/
structure OrmConfig where
  type : String
  database : String
  synchronize : Bool
  deriving DecidableEq, Repr

/-- The application's persistence configuration (src/unnamed/part_001 lines
37-42): the store type is the literal string sqlite; the database value is
`process.env.DATABASE_URL || 'database.sqlite'`; schema sync is enabled. -/
def appOrmConfig (databaseUrl : Option String) : OrmConfig :=
  { type := "sqlite"
    database := databaseUrl.getD "database.sqlite"
    synchronize := true }

theorem map_fix_of_no_key (l : List Item) (k : Nat) (p : ItemPayload)
    (h : ∀ r ∈ l, r.id ≠ k) :
    (l.map fun r => if r.id = k then r.applyPayload p else r) = l := by
  induction l with
  | nil => rfl
  | cons a t ih =>
    have ha : a.id ≠ k := h a (List.mem_cons_self a t)
    simp only [List.map_cons, if_neg ha, List.cons.injEq, true_and]
    exact ih fun r hr => h r (List.mem_cons_of_mem a hr)

theorem find?_none_of_no_key (l : List Item) (k : Nat)
    (h : ∀ r ∈ l, r.id ≠ k) :
    (l.find? fun r => r.id == k) = none := by
  rw [List.find?_eq_none]
  intro r hr
  simpa using h r hr

theorem filter_ne_of_no_key (l : List Item) (k : Nat)
    (h : ∀ r ∈ l, r.id ≠ k) :
    (l.filter fun r => r.id != k) = l := by
  rw [List.filter_eq_self]
  intro r hr
  simpa using h r hr

theorem Item.applyPayload_id (r : Item) (p : ItemPayload) :
    (r.applyPayload p).id = r.id :=
  rfl

theorem Store.updateById_map_id (s : Store) (k : Nat) (p : ItemPayload) :
    (s.updateById k p).records.map Item.id = s.records.map Item.id := by
  simp only [Store.updateById, List.map_map]
  apply List.map_congr_left
  intro a _
  by_cases hak : a.id = k
  · simp [Function.comp, hak, Item.applyPayload_id]
  · simp [Function.comp, hak]

theorem Store.WF_updateById (s : Store) (k : Nat) (p : ItemPayload) (h : s.WF) :
    (s.updateById k p).WF := by
  refine ⟨by rw [Store.updateById_map_id]; exact h.1, ?_⟩
  intro r hr
  simp only [Store.updateById, List.mem_map] at hr
  obtain ⟨r0, hr0, rfl⟩ := hr
  show (if r0.id = k then r0.applyPayload p else r0).id < s.nextId
  by_cases hk : r0.id = k
  · simpa [hk, Item.applyPayload_id] using h.2 r0 hr0
  · simpa [hk] using h.2 r0 hr0

theorem Store.WF_save (s : Store) (p : ItemPayload) (h : s.WF) :
    (s.save p).1.WF := by
  constructor
  · show ((s.records ++ [(⟨s.nextId, p.name, p.description, p.quantity⟩ : Item)]).map Item.id).Nodup
    rw [List.map_append]
    have hnotin : s.nextId ∉ s.records.map Item.id := by
      intro hmem
      obtain ⟨r, hr, hid⟩ := List.mem_map.mp hmem
      exact absurd hid (Nat.ne_of_lt (h.2 r hr))
    simp [List.nodup_append, h.1, hnotin]
  · intro r hr
    show r.id < s.nextId + 1
    have hr2 : r ∈ s.records ++ [(⟨s.nextId, p.name, p.description, p.quantity⟩ : Item)] := hr
    rcases List.mem_append.mp hr2 with hl | hr1
    · exact Nat.lt_succ_of_lt (h.2 r hl)
    · rw [List.mem_singleton.mp hr1]
      exact Nat.lt_succ_self _

theorem Store.WF_deleteById (s : Store) (k : Nat) (h : s.WF) :
    (s.deleteById k).1.WF := by
  constructor
  · exact h.1.sublist ((List.filter_sublist s.records).map Item.id)
  · intro r hr
    exact h.2 r (List.mem_of_mem_filter hr)

theorem Store.WF_applyOp (s : Store) (op : Op) (h : s.WF) :
    (applyOp s op).WF := by
  cases op with
  | list => exact h
  | create p => exact Store.WF_save s p h
  | update k p => exact Store.WF_updateById s k p h
  | delete k => exact Store.WF_deleteById s k h

theorem Store.WF_applyOps (s : Store) (ops : List Op) (h : s.WF) :
    (applyOps s ops).WF := by
  induction ops generalizing s with
  | nil => exact h
  | cons op t ih => exact ih (applyOp s op) (Store.WF_applyOp s op h)

theorem Store.count_key_le_one (s : Store) (h : s.WF) (k : Nat) :
    (s.records.filter fun r => r.id == k).length ≤ 1 := by
  have h1 : (s.records.filter fun r => r.id == k).length
      = s.records.countP fun r => r.id == k :=
    (List.countP_eq_length_filter _ _).symm
  have h2 : (s.records.countP fun r => r.id == k)
      = (s.records.map Item.id).countP fun x => x == k := by
    rw [List.countP_map]
    rfl
  rw [h1, h2, ← List.count_eq_countP]
  exact List.nodup_iff_count_le_one.mp h.1 k

theorem filter_ne_idem (l : List Item) (k : Nat) :
    ((l.filter fun r => r.id != k).filter fun r => r.id != k)
      = l.filter fun r => r.id != k :=
  List.filter_eq_self.mpr fun _ hr => (List.mem_filter.mp hr).2

/-- C1: for every id and payload the update handler issues an update-by-key
against the store and then a separate read-by-key on the same id, returning
exactly what that read finds; in particular, when no record with that id
exists, the update is a no-op on the store and the returned value is the
absent result of the read. -/
theorem update_is_write_then_read (s : Store) (k : Nat) (p : ItemPayload) :
    ItemsController.update s k p = (s.updateById k p, (s.updateById k p).findOne k) ∧
    ((∀ r ∈ s.records, r.id ≠ k) →
      s.updateById k p = s ∧ ItemsController.update s k p = (s, none)) := by
  refine ⟨rfl, fun h => ?_⟩
  have hno : s.updateById k p = s := by
    show ({ s with records := s.records.map fun r => if r.id = k then r.applyPayload p else r }
        : Store) = s
    rw [map_fix_of_no_key s.records k p h]
  refine ⟨hno, ?_⟩
  show (s.updateById k p, (s.updateById k p).findOne k) = (s, none)
  rw [hno]
  show (s, s.records.find? fun r => r.id == k) = (s, none)
  rw [find?_none_of_no_key s.records k h]

/-- Witness for C1: updating the absent id 1 in a store holding only id 2
leaves the store unchanged and returns the absent result. -/
theorem update_is_write_then_read_wit :
    ItemsController.update (Store.mk [Item.mk 2 none none none] 3) 1
        (ItemPayload.mk none (some "x") none none)
      = (Store.mk [Item.mk 2 none none none] 3, none) :=
  ((update_is_write_then_read (Store.mk [Item.mk 2 none none none] 3) 1
      (ItemPayload.mk none (some "x") none none)).2 (by decide)).2

/-- C2: create followed by list yields the prior records plus exactly one new
record whose fields match the payload and whose id is freshly assigned: no
record present before the create carries that id, and filtering the listing by
the new id yields exactly the one new record. -/
theorem create_then_list_fresh_id (s : Store) (p : ItemPayload) (h : s.WF) :
    ItemsController.findAll (ItemsController.create s p).1
      = s.records ++ [(ItemsController.create s p).2] ∧
    (ItemsController.create s p).2.name = p.name ∧
    (ItemsController.create s p).2.description = p.description ∧
    (ItemsController.create s p).2.quantity = p.quantity ∧
    (∀ r ∈ s.records, r.id ≠ (ItemsController.create s p).2.id) ∧
    (ItemsController.findAll (ItemsController.create s p).1).filter
        (fun r => r.id == (ItemsController.create s p).2.id)
      = [(ItemsController.create s p).2] := by
  have hne : ∀ r ∈ s.records, r.id ≠ s.nextId := fun r hr => Nat.ne_of_lt (h.2 r hr)
  refine ⟨rfl, rfl, rfl, rfl, hne, ?_⟩
  show (s.records ++ [(⟨s.nextId, p.name, p.description, p.quantity⟩ : Item)]).filter
      (fun r => r.id == s.nextId) = [(⟨s.nextId, p.name, p.description, p.quantity⟩ : Item)]
  rw [List.filter_append]
  have h1 : s.records.filter (fun r => r.id == s.nextId) = [] := by
    rw [List.filter_eq_nil_iff]
    intro r hr
    simpa using hne r hr
  rw [h1]
  simp

/-- Witness for C2: creating a record in a well-formed one-record store lists
the old record followed by the newly persisted one. -/
theorem create_then_list_fresh_id_wit :
    ItemsController.findAll (ItemsController.create (Store.mk [Item.mk 0 none none none] 1)
        (ItemPayload.mk none (some "n") (some "d") (some 5))).1
      = (Store.mk [Item.mk 0 none none none] 1).records
        ++ [(ItemsController.create (Store.mk [Item.mk 0 none none none] 1)
              (ItemPayload.mk none (some "n") (some "d") (some 5))).2] :=
  (create_then_list_fresh_id _ _ ⟨by decide, by decide⟩).1

/-- C3: deleting an id not present in the store completes with the no-content
response and leaves the store state exactly unchanged. -/
theorem delete_missing_id_noop (s : Store) (k : Nat)
    (h : ∀ r ∈ s.records, r.id ≠ k) :
    ItemsController.delete s k = (s, none) := by
  show ((s.deleteById k).1, (none : Option Nat)) = (s, none)
  have h1 : (s.deleteById k).1 = s := by
    show ({ s with records := s.records.filter fun r => r.id != k } : Store) = s
    rw [filter_ne_of_no_key s.records k h]
  rw [h1]

/-- Witness for C3: deleting the absent id 1 from a store holding only id 2
returns no content and leaves the store unchanged. -/
theorem delete_missing_id_noop_wit :
    ItemsController.delete (Store.mk [Item.mk 2 none none none] 3) 1
      = (Store.mk [Item.mk 2 none none none] 3, none) :=
  delete_missing_id_noop _ _ (by decide)

/-- C4: the claim that the connection string selects the store type fails on
the code: `TypeOrmModule.forRoot` hardcodes the type to the literal sqlite, so
every value of DATABASE_URL — including the deployment's postgres connection
string, which is passed through verbatim as the sqlite database value — still
yields the file-based sqlite store. -/
theorem store_type_hardcoded_sqlite :
    (∀ url, (appOrmConfig url).type = "sqlite") ∧
    (appOrmConfig (some "postgres://postgres:mysecretpassword@db/nestjs_crud_api")).type
      = "sqlite" ∧
    (appOrmConfig (some "postgres://postgres:mysecretpassword@db/nestjs_crud_api")).database
      = "postgres://postgres:mysecretpassword@db/nestjs_crud_api" :=
  ⟨fun _ => rfl, rfl, rfl⟩

/-- C5: the surrogate key is never changed once assigned — update preserves the
stored key sequence exactly, create only appends the freshly generated key —
well-formedness (pairwise-distinct keys, all below the next key) is preserved
by every sequence of endpoint operations, and in every reachable state each id
identifies at most one record. -/
theorem id_immutable_and_unique (s : Store) (h : s.WF) :
    (∀ k p, (s.updateById k p).records.map Item.id = s.records.map Item.id) ∧
    (∀ p, (ItemsController.create s p).1.records.map Item.id
        = s.records.map Item.id ++ [(ItemsController.create s p).2.id]) ∧
    (∀ ops, (applyOps s ops).WF) ∧
    (∀ ops k, ((applyOps s ops).records.filter fun r => r.id == k).length ≤ 1) := by
  refine ⟨fun k p => Store.updateById_map_id s k p, ?_,
    fun ops => Store.WF_applyOps s ops h, ?_⟩
  · intro p
    show (s.records ++ [(⟨s.nextId, p.name, p.description, p.quantity⟩ : Item)]).map Item.id
        = s.records.map Item.id ++ [s.nextId]
    rw [List.map_append]
    rfl
  · intro ops k
    exact Store.count_key_le_one (applyOps s ops) (Store.WF_applyOps s ops h) k

/-- Witness for C5: the state reached from a well-formed one-record store by a
create, an update and a delete is again well-formed. -/
theorem id_immutable_and_unique_wit :
    (applyOps (Store.mk [Item.mk 0 none none none] 1)
        [Op.create (ItemPayload.mk none none none none),
         Op.update 0 (ItemPayload.mk none (some "y") none none),
         Op.delete 0]).WF :=
  (id_immutable_and_unique _ ⟨by decide, by decide⟩).2.2.1 _

/-- C6: the create route accepts every payload — including one with all fields
missing or null — and never produces a client-error response; the persisted
record carries the payload's fields verbatim and is appended to the store. -/
theorem create_never_client_error (s : Store) (p : ItemPayload) :
    (ItemsController.createRoute s p).2 = CreateResp.ok (ItemsController.create s p).2 ∧
    (ItemsController.createRoute s p).2 ≠ CreateResp.clientError ∧
    (ItemsController.create s p).1.records = s.records ++ [(ItemsController.create s p).2] ∧
    (ItemsController.create s p).2.name = p.name ∧
    (ItemsController.create s p).2.description = p.description ∧
    (ItemsController.create s p).2.quantity = p.quantity :=
  ⟨rfl, fun hc => CreateResp.noConfusion hc, rfl, rfl, rfl, rfl⟩

/-- C7: the list operation takes no input besides the store and returns exactly
the full stored sequence in store-default order: every stored record appears in
the result and nothing else does. -/
theorem findAll_is_all_records (s : Store) :
    ItemsController.findAll s = s.records ∧
    ∀ r, r ∈ ItemsController.findAll s ↔ r ∈ s.records :=
  ⟨rfl, fun _ => Iff.rfl⟩

/-- C8: delete is idempotent — a second delete of the same id produces the same
observable response (no content, no error) and leaves the store in exactly the
state reached after the first delete. -/
theorem delete_twice_same (s : Store) (k : Nat) :
    ItemsController.delete (ItemsController.delete s k).1 k
      = ItemsController.delete s k := by
  show (((ItemsController.delete s k).1.deleteById k).1, (none : Option Nat))
      = ((s.deleteById k).1, none)
  have h1 : ((ItemsController.delete s k).1.deleteById k).1 = (s.deleteById k).1 := by
    show ({ s with
        records := (s.records.filter fun r => r.id != k).filter fun r => r.id != k } : Store)
      = { s with records := s.records.filter fun r => r.id != k }
    rw [filter_ne_idem]
  rw [h1]

/-- C10: the delete route's observable response is identical for any two store
states and ids — in particular a state containing the id and one not — because
the handler discards the store's affected-row count and returns no content. -/
theorem delete_response_state_independent (s t : Store) (k j : Nat) :
    (ItemsController.delete s k).2 = (ItemsController.delete t j).2 ∧
    (ItemsController.delete s k).2 = none :=
  ⟨rfl, rfl⟩
